import Mathlib

/-!
Shallow embedding of the teabag AppImage installer (Go, single file).
The wizard state machine, file browser and install pipeline are
translated from the source; filesystem and subprocess results are
supplied through explicit environment records.
-/

namespace Teabag

/-! ### Character level string primitives. Go strings are byte arrays;
the embedding models them as Lean strings and performs the Go standard
library operations the source uses on the underlying character list,
with structural recursion so every definition evaluates by rfl. -/

/-- strings.Split with a one character separator. -/
def splitOnChar (c : Char) : List Char → List (List Char)
  | [] => [[]]
  | x :: xs =>
    match splitOnChar c xs with
    | [] => [[x]]
    | h :: t => if x = c then [] :: h :: t else (x :: h) :: t

/-- strings.HasPrefix. -/
def hasPfx (pre s : String) : Bool := pre.data.isPrefixOf s.data

/-- strings.HasSuffix. -/
def hasSfx (suf s : String) : Bool := suf.data.isSuffixOf s.data

/-- ASCII case folding of one character, the only folding the listed
names and extensions exercise. -/
def lowerChar (c : Char) : Char :=
  if 65 ≤ c.toNat ∧ c.toNat ≤ 90 then Char.ofNat (c.toNat + 32) else c

/-- strings.ToLower. -/
def lowerStr (s : String) : String := String.mk (s.data.map lowerChar)

/-! ### Go path/filepath helpers (unix rules), translated from the
standard library behaviour the source relies on. -/

/-- One step of the lexical cleaning loop of Go filepath.Clean:
components are processed left to right onto a stack. -/
def cleanStep (rooted : Bool) (stack : List String) (comp : String) : List String :=
  if comp = "" ∨ comp = "." then stack
  else if comp = ".." then
    match stack with
    | [] => if rooted then [] else [".."]
    | top :: rest => if top = ".." then comp :: stack else rest
  else comp :: stack

/-- Go filepath.Clean for unix paths: lexically shortest equivalent path. -/
def clean (path : String) : String :=
  if path = "" then "."
  else
    let rooted := hasPfx "/" path
    let parts := (splitOnChar '/' path.data).map String.mk
    let comps := (parts.foldl (cleanStep rooted) []).reverse
    if comps = [] then (if rooted then "/" else ".")
    else (if rooted then "/" else "") ++ String.intercalate "/" comps

/-- Go filepath.Join restricted to two elements, as used by the source:
empty elements are skipped, the result is cleaned. -/
def join2 (a b : String) : String :=
  if a = "" then (if b = "" then "" else clean b)
  else clean (a ++ "/" ++ b)

/-- Go filepath.Base: last element of the path after trailing slashes
are removed; "." for the empty path, "/" if the path is all slashes. -/
def basename (path : String) : String :=
  if path = "" then "."
  else
    let rev := path.data.reverse.dropWhile (fun c => c = '/')
    if rev = [] then "/"
    else String.mk (rev.takeWhile (fun c => c ≠ '/')).reverse

/-- Go filepath.Dir: everything up to and including the final separator,
cleaned; "." when the path has no separator. -/
def dirOf (path : String) : String :=
  let rev := path.data.reverse.dropWhile (fun c => c ≠ '/')
  clean (String.mk rev.reverse)

/-! ### Data model (struct model of the source, UI-only fields kept). -/

/-- The wizard steps (type step in the source). -/
inductive Step
  | fileBrowser
  | appImageDir
  | appName
  | description
  | icon
  | iconBrowser
  | categories
  | processing
  | complete
  | error
deriving Repr, DecidableEq

/-- One browsable item (type fileEntry in the source). -/
structure FileEntry where
  name : String
  path : String
  isDir : Bool
deriving Repr, DecidableEq

/-- One raw directory entry as returned by os.ReadDir. -/
structure DirEntry where
  name : String
  isDir : Bool
deriving Repr, DecidableEq

/-- The model struct of the source (rendering-only style fields omitted). -/
structure Model where
  currentStep : Step
  appImagePath : String
  appImageDir : String
  appName : String
  description : String
  iconPath : String
  categories : String
  input : String
  error : String
  message : String
  configPath : String
  firstTimeSetup : Bool
  desktopFilePath : String
  currentDir : String
  files : List FileEntry
  allFiles : List FileEntry
  cursor : Nat
  searchMode : Bool
  searchQuery : String
  fuzzyMatches : List Nat
deriving Repr, DecidableEq

/-- Commands returned to the bubbletea runtime by the handlers. -/
inductive Cmd
  | none
  | quit
  | install
deriving Repr, DecidableEq

/-- Environment of the wizard: results of filesystem calls and of the
external fuzzy matcher (fuzzy.FindFrom returns the match indices into
the candidate list, best first; the library only returns valid indices). -/
structure Env where
  homeDir : String
  readDir : String → Option (List DirEntry)
  fileExists : String → Bool
  readFile : String → Option String
  mkdirOk : String → Bool
  writeFileOk : String → Bool
  fuzzyFind : String → List String → List Nat

/-! ### Config file handling (loadConfig / saveConfig). -/

/-- Double quote character. -/
def quoteChar : Char := Char.ofNat 34

/-- strings.Trim with a cutset of one double quote character. -/
def trimQuotes (s : String) : String :=
  let l := s.data.dropWhile (fun c => c = quoteChar)
  String.mk (l.reverse.dropWhile (fun c => c = quoteChar)).reverse

/-- The line scan of loadConfig: first line with the APPIMAGE_DIR= key,
quotes trimmed from the value. -/
def parseAppImageDir (data : String) : Option String :=
  ((splitOnChar '\n' data.data).map String.mk).findSome? fun line =>
    if hasPfx "APPIMAGE_DIR=" line then
      some (trimQuotes (String.mk (line.data.drop 13)))
    else none

/-- loadConfig: read the file, then scan for the APPIMAGE_DIR key. -/
def loadConfig (env : Env) (path : String) : Except String String :=
  match env.readFile path with
  | Option.none => Except.error "failed to read config file"
  | Option.some data =>
    match parseAppImageDir data with
    | Option.some dir => Except.ok dir
    | Option.none => Except.error "APPIMAGE_DIR not found in config"

/-- saveConfig succeeds when MkdirAll on the parent and WriteFile succeed. -/
def saveConfigOk (env : Env) (path : String) : Bool :=
  env.mkdirOk (dirOf path) && env.writeFileOk path

/-! ### Directory listing (isImageFile, loadDirectoryWithFilter). -/

/-- isImageFile checks if a filename has a common image extension. -/
def isImageFile (name : String) : Bool :=
  let lower := lowerStr name
  [".png", ".jpg", ".jpeg", ".svg", ".ico", ".xpm", ".bmp", ".gif", ".webp"].any
    fun ext => hasSfx ext lower

/-- The per-entry branch of the listing loop of loadDirectoryWithFilter:
directories always listed, files only when they pass the active filter. -/
def entryFor (currentDir : String) (iconMode : Bool) (e : DirEntry) : Option FileEntry :=
  let fullPath := join2 currentDir e.name
  if e.isDir then some { name := e.name, path := fullPath, isDir := true }
  else if iconMode && isImageFile e.name then
    some { name := e.name, path := fullPath, isDir := false }
  else if !iconMode && hasSfx ".appimage" (lowerStr e.name) then
    some { name := e.name, path := fullPath, isDir := false }
  else none

/-- loadDirectoryWithFilter: reset browser state, read the directory,
prepend the parent entry when not at the filesystem root, then keep
directories and filter-matching files in listing order. -/
def loadDirectoryWithFilter (env : Env) (iconMode : Bool) (m : Model) : Model :=
  let m := { m with allFiles := [], files := [], cursor := 0,
                    searchMode := false, searchQuery := "", fuzzyMatches := [] }
  match env.readDir m.currentDir with
  | Option.none => { m with error := "Failed to read directory" }
  | Option.some entries =>
    let parent : List FileEntry :=
      if m.currentDir ≠ "/" then
        [{ name := "..", path := dirOf m.currentDir, isDir := true }]
      else []
    let listed := entries.filterMap (entryFor m.currentDir iconMode)
    let all := parent ++ listed
    { m with allFiles := all, files := all }

/-- loadDirectory = loadDirectoryWithFilter with the AppImage filter. -/
def loadDirectory (env : Env) (m : Model) : Model :=
  loadDirectoryWithFilter env false m

/-- loadIconDirectory = loadDirectoryWithFilter with the image filter. -/
def loadIconDirectory (env : Env) (m : Model) : Model :=
  loadDirectoryWithFilter env true m

/-! ### Fuzzy search (applyFuzzySearch). -/

/-- applyFuzzySearch: empty query restores the unfiltered list and resets
the cursor; otherwise the visible list is rebuilt from the match indices
(always in range per the fuzzy library contract) and the cursor is
clamped into the new bounds. -/
def applyFuzzySearch (env : Env) (m : Model) : Model :=
  if m.searchQuery = "" then
    { m with files := m.allFiles, fuzzyMatches := [], cursor := 0 }
  else
    let ms := env.fuzzyFind m.searchQuery (m.allFiles.map (fun f => f.name))
    let files := ms.filterMap (fun i => m.allFiles.get? i)
    if m.cursor ≥ files.length then
      { m with fuzzyMatches := ms, files := files,
               cursor := max 0 (files.length - 1) }
    else
      { m with fuzzyMatches := ms, files := files }

/-! ### Wizard enter handling (handleEnter) and browser keys. -/

/-- Empty file entry, the zero value Go indexing would never produce
while the cursor invariant holds. -/
def emptyEntry : FileEntry := { name := "", path := "", isDir := false }

/-- isFileBrowserStep from the source. -/
def isFileBrowserStep (m : Model) : Bool :=
  m.currentStep = Step.fileBrowser || m.currentStep = Step.iconBrowser

/-- handleEnter: the per-step confirm action of the wizard. -/
def handleEnter (env : Env) (m : Model) : Model × Cmd :=
  match m.currentStep with
  | Step.fileBrowser =>
    if m.files = [] then (m, Cmd.none)
    else
      let selected := m.files.getD m.cursor emptyEntry
      if selected.isDir then
        (loadDirectory env { m with currentDir := selected.path }, Cmd.none)
      else
        let m := { m with appImagePath := selected.path }
        if env.fileExists m.configPath = false then
          ({ m with firstTimeSetup := true, currentStep := Step.appImageDir,
                    input := join2 env.homeDir "Applications" }, Cmd.none)
        else
          match loadConfig env m.configPath with
          | Except.ok dir =>
            ({ m with appImageDir := dir, currentStep := Step.appName }, Cmd.none)
          | Except.error e =>
            ({ m with currentStep := Step.error,
                      error := "Failed to load config: " ++ e }, Cmd.none)
  | Step.appImageDir =>
    let m := if m.input = "" then { m with input := join2 env.homeDir "Applications" }
             else m
    let m := { m with appImageDir := m.input }
    if env.mkdirOk m.appImageDir = false then
      ({ m with currentStep := Step.error, error := "Failed to create directory" },
        Cmd.none)
    else if saveConfigOk env m.configPath = false then
      ({ m with currentStep := Step.error, error := "Failed to save config" },
        Cmd.none)
    else
      ({ m with currentStep := Step.appName, input := "" }, Cmd.none)
  | Step.appName =>
    if m.input = "" then
      ({ m with error := "Application name is required" }, Cmd.none)
    else
      ({ m with appName := m.input, currentStep := Step.description,
                input := "", error := "" }, Cmd.none)
  | Step.description =>
    ({ m with description := m.input, currentStep := Step.icon, input := "" },
      Cmd.none)
  | Step.icon =>
    if m.input = "b" ∨ m.input = "B" then
      (loadIconDirectory env { m with currentDir := env.homeDir,
                                      currentStep := Step.iconBrowser, input := "" },
        Cmd.none)
    else if m.input ≠ "" ∧ env.fileExists m.input = false then
      ({ m with error := "Warning: Icon file not found: " ++ m.input }, Cmd.none)
    else
      ({ m with iconPath := m.input, currentStep := Step.categories,
                input := "Utility;", error := "" }, Cmd.none)
  | Step.iconBrowser =>
    if m.files = [] then (m, Cmd.none)
    else
      let selected := m.files.getD m.cursor emptyEntry
      if selected.isDir then
        (loadIconDirectory env { m with currentDir := selected.path }, Cmd.none)
      else
        ({ m with iconPath := selected.path, currentStep := Step.categories,
                  input := "Utility;", error := "" }, Cmd.none)
  | Step.categories =>
    let m := if m.input = "" then { m with input := "Utility;" } else m
    let m := if !(hasSfx ";" m.input) then { m with input := m.input ++ ";" }
             else m
    ({ m with categories := m.input, currentStep := Step.processing, input := "" },
      Cmd.install)
  | Step.complete => (m, Cmd.quit)
  | Step.error => (m, Cmd.quit)
  | Step.processing => (m, Cmd.none)

/-- handleFileBrowserKeys: key dispatch while a browser step is active.
Go slices the search query by bytes; with the single byte keys that can
reach it this is List.dropLast on the characters. -/
def handleFileBrowserKeys (env : Env) (m : Model) (key : String) : Model × Cmd :=
  if m.searchMode then
    if key = "ctrl+c" then (m, Cmd.quit)
    else if key = "esc" then
      ({ m with searchMode := false, searchQuery := "", files := m.allFiles,
                fuzzyMatches := [], cursor := 0 }, Cmd.none)
    else if key = "enter" then handleEnter env { m with searchMode := false }
    else if key = "backspace" then
      if m.searchQuery.length > 0 then
        (applyFuzzySearch env
          { m with searchQuery := String.mk m.searchQuery.data.dropLast }, Cmd.none)
      else (m, Cmd.none)
    else if key = "up" then
      (if m.cursor > 0 then { m with cursor := m.cursor - 1 } else m, Cmd.none)
    else if key = "down" then
      (if m.cursor + 1 < m.files.length then { m with cursor := m.cursor + 1 }
       else m, Cmd.none)
    else if key.length = 1 then
      (applyFuzzySearch env { m with searchQuery := m.searchQuery ++ key }, Cmd.none)
    else (m, Cmd.none)
  else
    if key = "ctrl+c" ∨ key = "esc" then (m, Cmd.quit)
    else if key = "/" then
      ({ m with searchMode := true, searchQuery := "" }, Cmd.none)
    else if key = "up" ∨ key = "k" then
      (if m.cursor > 0 then { m with cursor := m.cursor - 1 } else m, Cmd.none)
    else if key = "down" ∨ key = "j" then
      (if m.cursor + 1 < m.files.length then { m with cursor := m.cursor + 1 }
       else m, Cmd.none)
    else if key = "enter" then handleEnter env m
    else if key = "backspace" then
      if m.currentDir ≠ "/" then
        (if m.currentStep = Step.iconBrowser then
           loadIconDirectory env { m with currentDir := dirOf m.currentDir }
         else loadDirectory env { m with currentDir := dirOf m.currentDir },
          Cmd.none)
      else (m, Cmd.none)
    else (m, Cmd.none)

/-! ### Install pipeline. -/

/-- Environment of the install pipeline: results of the filesystem and
subprocess calls it performs. -/
structure InstallEnv where
  absOf : String → Option String
  renameOk : String → String → Bool
  chmodOk : String → Bool
  tmpDir : String
  writeOk : String → Bool
  cpOk : String → String → Bool
  pkexecFound : Bool
  pkexecCpOk : Bool

/-- Outcome reported through installCompleteMsg. -/
inductive InstallResult
  | success
  | failure (msg : String)
deriving Repr, DecidableEq

/-- Observable outcome of one pipeline run: the reported result plus the
filesystem effects performed before it and the derived names. -/
structure InstallTrace where
  result : InstallResult
  renameAttempted : Bool
  fileAtDest : Bool
  execSet : Bool
  tmpWritten : Bool
  destFile : String
  desktopFilename : String
  desktopEntry : String
  desktopFilePath : String
deriving Repr, DecidableEq

/-- The desktop entry text built by install (the Sprintf block plus the
two conditional lines). -/
def desktopEntryText (name destFile categories description iconPath : String) :
    String :=
  let entry := "[Desktop Entry]\nName=" ++ name ++ "\nExec=" ++ destFile ++
    "\nType=Application\nCategories=" ++ categories ++ "\n"
  let entry := if description ≠ "" then entry ++ ("Comment=" ++ description ++ "\n")
               else entry
  if iconPath ≠ "" then entry ++ ("Icon=" ++ iconPath ++ "\n") else entry

/-- The desktop file name derived from the application name: spaces
replaced by hyphens (the character wise effect of ReplaceAll with a one
character pattern), then lower cased, plus the fixed suffix. -/
def desktopFilenameOf (name : String) : String :=
  lowerStr (String.mk (name.data.map fun c => if c = ' ' then '-' else c)) ++
    ".desktop"

/-- The system wide desktop entry directory used by install. -/
def desktopDir : String := "/usr/share/applications"

/-- The terminal failure message of install. In the source the trailing
format verb wraps an error value that is nil at that point. -/
def privErrorMsg : String :=
  "Installation requires administrator privileges. \n\n Rerun with sudo or pkexec.\n"

/-- install: the installation pipeline. Mirrors the source control flow;
in particular the final privilege failure return is reached both when the
plain cp failed with no pkexec on the path and when the plain cp
succeeded, because the source has no success return on that path. -/
def install (env : InstallEnv) (m : Model) : InstallTrace :=
  match env.absOf m.appImagePath with
  | Option.none =>
    { result := InstallResult.failure "failed to get absolute path",
      renameAttempted := false, fileAtDest := false, execSet := false,
      tmpWritten := false, destFile := "", desktopFilename := "",
      desktopEntry := "", desktopFilePath := "" }
  | Option.some absPath =>
    let destFile := join2 m.appImageDir (basename absPath)
    let attempted := absPath ≠ destFile
    if absPath ≠ destFile ∧ env.renameOk absPath destFile = false then
      { result := InstallResult.failure "failed to move file",
        renameAttempted := true, fileAtDest := false, execSet := false,
        tmpWritten := false, destFile := destFile, desktopFilename := "",
        desktopEntry := "", desktopFilePath := "" }
    else if env.chmodOk destFile = false then
      { result := InstallResult.failure "failed to make executable",
        renameAttempted := decide attempted, fileAtDest := true, execSet := false,
        tmpWritten := false, destFile := destFile, desktopFilename := "",
        desktopEntry := "", desktopFilePath := "" }
    else
      let entry := desktopEntryText m.appName destFile m.categories
        m.description m.iconPath
      let fname := desktopFilenameOf m.appName
      let tmpDesktopFile := join2 env.tmpDir fname
      if env.writeOk tmpDesktopFile = false then
        { result := InstallResult.failure "failed to create temp desktop entry",
          renameAttempted := decide attempted, fileAtDest := true, execSet := true,
          tmpWritten := false, destFile := destFile, desktopFilename := fname,
          desktopEntry := entry, desktopFilePath := "" }
      else
        let dfp := join2 desktopDir fname
        if env.cpOk tmpDesktopFile dfp = false ∧ env.pkexecFound = true then
          if env.pkexecCpOk then
            { result := InstallResult.success,
              renameAttempted := decide attempted, fileAtDest := true,
              execSet := true, tmpWritten := true, destFile := destFile,
              desktopFilename := fname, desktopEntry := entry,
              desktopFilePath := dfp }
          else
            { result := InstallResult.failure "failed to copy desktop file",
              renameAttempted := decide attempted, fileAtDest := true,
              execSet := true, tmpWritten := true, destFile := destFile,
              desktopFilename := fname, desktopEntry := entry,
              desktopFilePath := dfp }
        else
          { result := InstallResult.failure privErrorMsg,
            renameAttempted := decide attempted, fileAtDest := true,
            execSet := true, tmpWritten := true, destFile := destFile,
            desktopFilename := fname, desktopEntry := entry,
            desktopFilePath := dfp }

/-! ### Spec side vocabulary and string helpers. -/

/-- Spec side description of the launcher metadata file: a block of
lines, each followed by a newline. -/
def specLineBlock (ls : List String) : String :=
  ls.foldr (fun l acc => l ++ "\n" ++ acc) ""

theorem dataHeadName : "[Desktop Entry]\nName=".data =
    "[Desktop Entry]".data ++ "\n".data ++ "Name=".data := by decide

theorem dataExec : "\nExec=".data = "\n".data ++ "Exec=".data := by decide

theorem dataTypeCats : "\nType=Application\nCategories=".data =
    "\n".data ++ "Type=Application".data ++ "\n".data ++ "Categories=".data := by
  decide

theorem dataEmpty : "".data = [] := by decide

/-- The synthesized metadata text is exactly the line block with keys in
the order Name, Exec, Type, Categories, then Comment only for a non
empty description, then Icon only for a non empty icon path. -/
theorem desktopEntryText_eq_lineBlock (n e c d i : String) :
    desktopEntryText n e c d i =
      specLineBlock (["[Desktop Entry]", "Name=" ++ n, "Exec=" ++ e,
        "Type=Application", "Categories=" ++ c] ++
        (if d = "" then [] else ["Comment=" ++ d]) ++
        (if i = "" then [] else ["Icon=" ++ i])) := by
  rcases eq_or_ne d "" with hd | hd <;> rcases eq_or_ne i "" with hi | hi <;>
    (apply String.ext
     simp [desktopEntryText, specLineBlock, hd, hi, String.data_append,
       dataHeadName, dataExec, dataTypeCats, dataEmpty, List.append_assoc])

/-! ### Concrete pipeline runs used as witnesses. -/

/-- A wizard state about to run the pipeline on the example of the spec:
bundle /tmp/App.bundle, directory /home/u/Apps, name My App. -/
def installModelEx : Model :=
  { currentStep := Step.processing, appImagePath := "/tmp/App.bundle",
    appImageDir := "/home/u/Apps", appName := "My App", description := "",
    iconPath := "", categories := "Utility;", input := "", error := "",
    message := "", configPath := "/home/u/.config/teabag.conf",
    firstTimeSetup := false, desktopFilePath := "", currentDir := "/",
    files := [], allFiles := [], cursor := 0, searchMode := false,
    searchQuery := "", fuzzyMatches := [] }

/-- A run in which every filesystem step succeeds and the plain cp into
the registration directory also succeeds. -/
def envCpSucceeds : InstallEnv :=
  { absOf := fun _ => some "/tmp/App.bundle", renameOk := fun _ _ => true,
    chmodOk := fun _ => true, tmpDir := "/tmp", writeOk := fun _ => true,
    cpOk := fun _ _ => true, pkexecFound := false, pkexecCpOk := false }

/-- A run in which the plain cp fails and pkexec is not on the path. -/
def envNoPkexec : InstallEnv :=
  { absOf := fun _ => some "/tmp/App.bundle", renameOk := fun _ _ => true,
    chmodOk := fun _ => true, tmpDir := "/tmp", writeOk := fun _ => true,
    cpOk := fun _ _ => false, pkexecFound := false, pkexecCpOk := false }

/-- A run in which the plain cp fails and the pkexec fallback succeeds. -/
def envPkexecOk : InstallEnv :=
  { absOf := fun _ => some "/tmp/App.bundle", renameOk := fun _ _ => true,
    chmodOk := fun _ => true, tmpDir := "/tmp", writeOk := fun _ => true,
    cpOk := fun _ _ => false, pkexecFound := true, pkexecCpOk := true }

/-- C1: on a run in which resolving, moving, chmodding, temp writing and
ALSO the unprivileged copy all succeed, the pipeline still reports the
elevated privileges failure, not success: the source has no success
return on the plain copy path, so the claim fails on the code. -/
theorem c1_unprivileged_copy_success_still_fails :
    (install envCpSucceeds installModelEx).result =
      InstallResult.failure privErrorMsg ∧
    (install envCpSucceeds installModelEx).result ≠ InstallResult.success := by
  constructor
  · rfl
  · decide

/-- C2: when the unprivileged copy into the registration directory fails
and pkexec is not on the path, the pipeline reports failure with the
elevated privileges message (which names privileges and instructs a
rerun with sudo), and at that point the bundle already sits at the
destination and has been made executable. -/
theorem c2_no_pkexec_reports_privilege_failure (env : InstallEnv) (m : Model)
    (absPath : String)
    (habs : env.absOf m.appImagePath = some absPath)
    (hmv : absPath = join2 m.appImageDir (basename absPath) ∨
      env.renameOk absPath (join2 m.appImageDir (basename absPath)) = true)
    (hch : env.chmodOk (join2 m.appImageDir (basename absPath)) = true)
    (hwr : env.writeOk (join2 env.tmpDir (desktopFilenameOf m.appName)) = true)
    (hcp : env.cpOk (join2 env.tmpDir (desktopFilenameOf m.appName))
      (join2 desktopDir (desktopFilenameOf m.appName)) = false)
    (hpk : env.pkexecFound = false) :
    (install env m).result = InstallResult.failure privErrorMsg ∧
    (∃ a b, privErrorMsg = a ++ "privileges" ++ b) ∧
    (∃ a b, privErrorMsg = a ++ "Rerun with sudo" ++ b) ∧
    (install env m).fileAtDest = true ∧
    (install env m).execSet = true := by
  have hni : ¬(absPath ≠ join2 m.appImageDir (basename absPath) ∧
      env.renameOk absPath (join2 m.appImageDir (basename absPath)) = false) := by
    rcases hmv with h | h
    · exact fun hc => hc.1 h
    · intro hc
      rw [h] at hc
      simpa using hc.2
  refine ⟨?_,
    ⟨"Installation requires administrator ",
      ". \n\n Rerun with sudo or pkexec.\n", by decide⟩,
    ⟨"Installation requires administrator privileges. \n\n ",
      " or pkexec.\n", by decide⟩, ?_, ?_⟩ <;>
    simp [install, habs, hni, hch, hwr, hcp, hpk]

/-- C2 witness: the concrete no pkexec run on the example state. -/
theorem c2_no_pkexec_reports_privilege_failure_witness :
    (install envNoPkexec installModelEx).result =
      InstallResult.failure privErrorMsg ∧
    (∃ a b, privErrorMsg = a ++ "privileges" ++ b) ∧
    (∃ a b, privErrorMsg = a ++ "Rerun with sudo" ++ b) ∧
    (install envNoPkexec installModelEx).fileAtDest = true ∧
    (install envNoPkexec installModelEx).execSet = true :=
  c2_no_pkexec_reports_privilege_failure envNoPkexec installModelEx
    "/tmp/App.bundle" rfl (Or.inr rfl) rfl rfl rfl rfl

/-- C3: the destination is the configured directory joined with the base
name of the resolved source; the move is attempted exactly when source
and destination differ; the metadata file name is the lower cased,
hyphenated application name with the fixed suffix; and the synthesized
text carries an Exec line holding exactly the destination path. -/
theorem c3_destination_and_metadata_naming (env : InstallEnv) (m : Model)
    (absPath : String)
    (habs : env.absOf m.appImagePath = some absPath)
    (hmv : absPath = join2 m.appImageDir (basename absPath) ∨
      env.renameOk absPath (join2 m.appImageDir (basename absPath)) = true)
    (hch : env.chmodOk (join2 m.appImageDir (basename absPath)) = true) :
    (install env m).destFile = join2 m.appImageDir (basename absPath) ∧
    ((install env m).renameAttempted = false ↔
      absPath = join2 m.appImageDir (basename absPath)) ∧
    (install env m).desktopFilename =
      lowerStr (String.mk (m.appName.data.map fun c => if c = ' ' then '-' else c))
        ++ ".desktop" ∧
    ∃ pre post, (install env m).desktopEntry =
      specLineBlock (pre ++
        ("Exec=" ++ join2 m.appImageDir (basename absPath)) :: post) := by
  have hni : ¬(absPath ≠ join2 m.appImageDir (basename absPath) ∧
      env.renameOk absPath (join2 m.appImageDir (basename absPath)) = false) := by
    rcases hmv with h | h
    · exact fun hc => hc.1 h
    · intro hc
      rw [h] at hc
      simpa using hc.2
  refine ⟨?_, ?_, ?_,
    ["[Desktop Entry]", "Name=" ++ m.appName],
    ["Type=Application", "Categories=" ++ m.categories] ++
      (if m.description = "" then [] else ["Comment=" ++ m.description]) ++
      (if m.iconPath = "" then [] else ["Icon=" ++ m.iconPath]), ?_⟩
  · simp [install, habs, hni, hch, apply_ite InstallTrace.destFile, ite_self]
  · simp [install, habs, hni, hch, apply_ite InstallTrace.renameAttempted,
      ite_self]
  · simp [install, habs, hni, hch, apply_ite InstallTrace.desktopFilename,
      ite_self, desktopFilenameOf]
  · have hE : (install env m).desktopEntry =
        desktopEntryText m.appName (join2 m.appImageDir (basename absPath))
          m.categories m.description m.iconPath := by
      simp [install, habs, hni, hch, apply_ite InstallTrace.desktopEntry, ite_self]
    rw [hE, desktopEntryText_eq_lineBlock]
    simp

/-- C3 witness: the example of the spec, bundle /tmp/App.bundle into
/home/u/Apps under the name My App. -/
theorem c3_destination_and_metadata_naming_witness :
    (install envPkexecOk installModelEx).destFile = "/home/u/Apps/App.bundle" ∧
    (install envPkexecOk installModelEx).desktopFilename = "my-app.desktop" ∧
    ((install envPkexecOk installModelEx).renameAttempted = false ↔
      "/tmp/App.bundle" = join2 "/home/u/Apps" (basename "/tmp/App.bundle")) := by
  have h := c3_destination_and_metadata_naming envPkexecOk installModelEx
    "/tmp/App.bundle" rfl (Or.inr rfl) rfl
  refine ⟨h.1.trans (by decide), h.2.2.1.trans (by decide), h.2.1⟩

/-- C4: for every name, description, icon path and categories value, the
synthesized metadata text is the line block with keys in the order Name,
Exec, Type=Application, Categories, then a Comment line exactly when the
description is non empty, then an Icon line exactly when the icon path
is non empty. -/
theorem c4_metadata_key_order (n e c d i : String) :
    desktopEntryText n e c d i =
      specLineBlock (["[Desktop Entry]", "Name=" ++ n, "Exec=" ++ e,
        "Type=Application", "Categories=" ++ c] ++
        (if d = "" then [] else ["Comment=" ++ d]) ++
        (if i = "" then [] else ["Icon=" ++ i])) :=
  desktopEntryText_eq_lineBlock n e c d i

/-- A small wizard environment for concrete runs: one directory /d with
one AppImage file, a readable config naming /home/u/Apps. -/
def wizEnvEx : Env :=
  { homeDir := "/home/u",
    readDir := fun d =>
      if d = "/d" then
        some [{ name := "app.AppImage", isDir := false },
              { name := "notes.txt", isDir := false },
              { name := "pics", isDir := true }]
      else if d = "/home/u" then
        some [{ name := "icon.png", isDir := false },
              { name := "notes.txt", isDir := false }]
      else none,
    fileExists := fun _ => true,
    readFile := fun _ => some "APPIMAGE_DIR=\x22/home/u/Apps\x22\n",
    mkdirOk := fun _ => true,
    writeFileOk := fun _ => true,
    fuzzyFind := fun _ _ => [0] }

/-- A wizard state about to list /d in the file browser. -/
def browseBaseEx : Model :=
  { installModelEx with currentStep := Step.fileBrowser, currentDir := "/d" }

/-- A wizard state sitting in the file browser over /d. -/
def browserModelEx : Model :=
  loadDirectoryWithFilter wizEnvEx false browseBaseEx

/-- C5: confirming the Categories step stores the default for empty
input, appends exactly one separator when the input lacks one, and
leaves input already ending in the separator unchanged. -/
theorem c5_categories_normalized (env : Env) (m : Model)
    (hs : m.currentStep = Step.categories) :
    (m.input = "" → (handleEnter env m).1.categories = "Utility;") ∧
    (m.input ≠ "" → hasSfx ";" m.input = false →
      (handleEnter env m).1.categories = m.input ++ ";") ∧
    (hasSfx ";" m.input = true →
      (handleEnter env m).1.categories = m.input) := by
  have hu : hasSfx ";" "Utility;" = true := by decide
  refine ⟨fun h0 => ?_, fun hne hsfx => ?_, fun hsfx => ?_⟩
  · simp [handleEnter, hs, h0, hu]
  · simp [handleEnter, hs, hne, hsfx]
  · have hne : m.input ≠ "" := by
      intro h0
      rw [h0] at hsfx
      exact absurd hsfx (by decide)
    simp [handleEnter, hs, hne, hsfx]

/-- C5 witness: the three normalization cases on concrete inputs. -/
theorem c5_categories_normalized_witness :
    (handleEnter wizEnvEx { installModelEx with
      currentStep := Step.categories, input := "" }).1.categories = "Utility;" ∧
    (handleEnter wizEnvEx { installModelEx with
      currentStep := Step.categories, input := "Game" }).1.categories = "Game;" ∧
    (handleEnter wizEnvEx { installModelEx with
      currentStep := Step.categories, input := "Game;" }).1.categories =
        "Game;" := by
  refine ⟨?_, ?_, ?_⟩
  · exact (c5_categories_normalized wizEnvEx _ rfl).1 rfl
  · exact (c5_categories_normalized wizEnvEx _ rfl).2.1 (by decide) (by decide)
  · exact (c5_categories_normalized wizEnvEx _ rfl).2.2 (by decide)

/-- What entryFor reveals about a produced entry: the display name is
the raw entry name, and a file entry passed the active filter. -/
theorem entryFor_some {cd : String} {im : Bool} {a : DirEntry} {f : FileEntry}
    (h : entryFor cd im a = some f) :
    f.name = a.name ∧ (f.isDir = false →
      (if im then isImageFile a.name
       else hasSfx ".appimage" (lowerStr a.name)) = true) := by
  unfold entryFor at h
  split_ifs at h with h1 h2 h3
  · cases h
    exact ⟨rfl, fun hd => by simp at hd⟩
  · cases h
    refine ⟨rfl, fun _ => ?_⟩
    simp only [Bool.and_eq_true] at h2
    simp [h2.1, h2.2]
  · cases h
    refine ⟨rfl, fun _ => ?_⟩
    simp only [Bool.and_eq_true, Bool.not_eq_true'] at h3
    simp [h3.1, h3.2]

/-- C6: for every produced listing, the parent entry is first and only
present away from the root, and every listed file (non directory) entry
passed the active extension filter. The hypothesis on the raw entries is
the os.ReadDir contract that a listing never contains dot dot. -/
theorem c6_listing_parent_and_filter (env : Env) (iconMode : Bool) (m : Model)
    (entries : List DirEntry)
    (hrd : env.readDir m.currentDir = some entries)
    (hdd : ∀ e ∈ entries, e.name ≠ "..") :
    (m.currentDir ≠ "/" →
      (loadDirectoryWithFilter env iconMode m).files.head? =
        some { name := "..", path := dirOf m.currentDir, isDir := true }) ∧
    (m.currentDir = "/" →
      ∀ f ∈ (loadDirectoryWithFilter env iconMode m).files, f.name ≠ "..") ∧
    (∀ f ∈ (loadDirectoryWithFilter env iconMode m).files, f.isDir = false →
      (if iconMode then isImageFile f.name
       else hasSfx ".appimage" (lowerStr f.name)) = true) := by
  refine ⟨fun hroot => ?_, fun hroot => ?_, ?_⟩
  · simp [loadDirectoryWithFilter, hrd, hroot]
  · intro f hf
    rw [hroot] at hrd
    simp [loadDirectoryWithFilter, hroot, hrd, List.mem_filterMap] at hf
    obtain ⟨a, ha, hfa⟩ := hf
    rw [(entryFor_some hfa).1]
    exact hdd a ha
  · intro f hf hfile
    rcases eq_or_ne m.currentDir "/" with hc | hc
    · rw [hc] at hrd
      simp [loadDirectoryWithFilter, hc, hrd, List.mem_filterMap] at hf
      obtain ⟨a, ha, hfa⟩ := hf
      rw [(entryFor_some hfa).1]
      exact (entryFor_some hfa).2 hfile
    · simp [loadDirectoryWithFilter, hc, hrd, List.mem_filterMap] at hf
      rcases hf with hf | ⟨a, ha, hfa⟩
      · rw [hf] at hfile
        simp at hfile
      · rw [(entryFor_some hfa).1]
        exact (entryFor_some hfa).2 hfile

/-- C6 witness: the concrete listing of /d with the AppImage filter. -/
theorem c6_listing_parent_and_filter_witness :
    (loadDirectoryWithFilter wizEnvEx false browseBaseEx).files.head? =
      some { name := "..", path := dirOf "/d", isDir := true } ∧
    (∀ f ∈ (loadDirectoryWithFilter wizEnvEx false browseBaseEx).files,
      f.isDir = false →
      (if false then isImageFile f.name
       else hasSfx ".appimage" (lowerStr f.name)) = true) := by
  have h := c6_listing_parent_and_filter wizEnvEx false browseBaseEx
    [{ name := "app.AppImage", isDir := false },
     { name := "notes.txt", isDir := false },
     { name := "pics", isDir := true }] rfl (by decide)
  exact ⟨h.1 (by decide), h.2.2⟩

/-! ### The cursor invariant of the browser (C7). -/

/-- The browser invariant of the spec: the cursor indexes the visible
list whenever it is non empty, and is pinned to 0 when it is empty. -/
def browserInv (m : Model) : Prop :=
  (m.files = [] → m.cursor = 0) ∧ (m.files ≠ [] → m.cursor < m.files.length)

theorem browserInv_zero (m : Model) (h : m.cursor = 0) : browserInv m :=
  ⟨fun _ => h, fun hne => h ▸ List.length_pos.2 hne⟩

/-- Loading a directory always resets the cursor to 0. -/
theorem load_cursor_eq_zero (env : Env) (b : Bool) (m : Model) :
    (loadDirectoryWithFilter env b m).cursor = 0 := by
  rcases hd : env.readDir m.currentDir with _ | entries <;>
    simp [loadDirectoryWithFilter, hd]

/-- Loading a directory always re-establishes the invariant. -/
theorem browserInv_load (env : Env) (b : Bool) (m : Model) :
    browserInv (loadDirectoryWithFilter env b m) :=
  browserInv_zero _ (load_cursor_eq_zero env b m)

/-- Decrementing the cursor preserves the invariant. -/
theorem browserInv_dec (m : Model) (h : browserInv m) :
    browserInv { m with cursor := m.cursor - 1 } := by
  refine ⟨fun hf => ?_, fun hf => ?_⟩
  · have h0 := h.1 hf
    show m.cursor - 1 = 0
    omega
  · have h0 := h.2 hf
    show m.cursor - 1 < m.files.length
    omega

/-- Incrementing the cursor under the guard of the source preserves the
invariant. -/
theorem browserInv_inc (m : Model) (hc : m.cursor + 1 < m.files.length) :
    browserInv { m with cursor := m.cursor + 1 } := by
  refine ⟨fun hf => ?_, fun _ => hc⟩
  have hf2 : m.files = [] := hf
  rw [hf2] at hc
  simp at hc

/-- The clamp of applyFuzzySearch establishes the invariant for any new
visible list. -/
theorem browserInv_setFiles (m : Model) (ms : List Nat) (fs : List FileEntry) :
    browserInv (if m.cursor ≥ fs.length then
        { m with fuzzyMatches := ms, files := fs,
                 cursor := max 0 (fs.length - 1) }
      else { m with fuzzyMatches := ms, files := fs }) := by
  split_ifs with h2
  · refine ⟨fun hf => ?_, fun hf => ?_⟩
    · have hf2 : fs = [] := hf
      show max 0 (fs.length - 1) = 0
      rw [hf2]
      rfl
    · have hf2 : fs ≠ [] := hf
      have hl := List.length_pos.2 hf2
      show max 0 (fs.length - 1) < fs.length
      rw [Nat.zero_max]
      omega
  · refine ⟨fun hf => ?_, fun _ => ?_⟩
    · exfalso
      have hf2 : fs = [] := hf
      rw [hf2] at h2
      simp at h2
    · show m.cursor < fs.length
      omega

/-- Re-filtering by the fuzzy query always establishes the invariant:
the empty query path pins the cursor to 0, the other path clamps it. -/
theorem browserInv_fuzzy (env : Env) (m : Model) :
    browserInv (applyFuzzySearch env m) := by
  rcases eq_or_ne m.searchQuery "" with h1 | h1
  · unfold applyFuzzySearch
    rw [if_pos h1]
    exact browserInv_zero _ rfl
  · unfold applyFuzzySearch
    rw [if_neg h1]
    exact browserInv_setFiles m _ _

/-- Every confirm action preserves the invariant: it either leaves the
visible list and cursor untouched or reloads a directory. -/
theorem browserInv_handleEnter (env : Env) (m : Model) (h : browserInv m) :
    browserInv (handleEnter env m).1 := by
  cases hs : m.currentStep <;>
    simp only [handleEnter, hs] <;>
    (try split_ifs) <;>
    (try cases loadConfig env m.configPath) <;>
    first
      | exact h
      | exact browserInv_load _ _ _

/-- The browser state over /d with an active one character search. -/
def searchModelEx : Model :=
  { browserModelEx with searchMode := true, searchQuery := "p" }

/-- The browser state over /d with the cursor on the AppImage file. -/
def selectFileModelEx : Model := { browserModelEx with cursor := 1 }

/-- The wizard environment whose config file lacks the directory key. -/
def badConfigEnvEx : Env :=
  { wizEnvEx with readFile := fun _ => some "OTHER=1\n" }

/-- A wizard state at the Icon step with the browse command typed. -/
def iconStepModelEx : Model :=
  { installModelEx with currentStep := Step.icon, input := "b" }

/-- A directory load never touches the location, step or pending input
fields. -/
theorem load_fields (env : Env) (b : Bool) (m : Model) :
    (loadDirectoryWithFilter env b m).currentDir = m.currentDir ∧
    (loadDirectoryWithFilter env b m).currentStep = m.currentStep ∧
    (loadDirectoryWithFilter env b m).input = m.input := by
  rcases hd : env.readDir m.currentDir with _ | entries <;>
    simp [loadDirectoryWithFilter, hd]

set_option maxHeartbeats 2000000 in
/-- C7: every browser key stroke preserves the cursor invariant, every
directory load establishes it, and confirming on an empty visible list
is a no op. -/
theorem c7_cursor_invariant (env : Env) (m : Model) (key : String) (b : Bool)
    (h : browserInv m) :
    browserInv (handleFileBrowserKeys env m key).1 ∧
    browserInv (loadDirectoryWithFilter env b m) ∧
    (isFileBrowserStep m = true → m.files = [] →
      handleEnter env m = (m, Cmd.none)) := by
  refine ⟨?_, browserInv_load env b m, fun hstep hfiles => ?_⟩
  · unfold handleFileBrowserKeys
    by_cases hsm : m.searchMode = true
    · rw [if_pos hsm]
      by_cases k1 : key = "ctrl+c"
      · rw [if_pos k1]
        exact h
      rw [if_neg k1]
      by_cases k2 : key = "esc"
      · rw [if_pos k2]
        exact browserInv_zero _ rfl
      rw [if_neg k2]
      by_cases k3 : key = "enter"
      · rw [if_pos k3]
        exact browserInv_handleEnter _ _ h
      rw [if_neg k3]
      by_cases k4 : key = "backspace"
      · rw [if_pos k4]
        by_cases k5 : m.searchQuery.length > 0
        · rw [if_pos k5]
          exact browserInv_fuzzy _ _
        · rw [if_neg k5]
          exact h
      rw [if_neg k4]
      by_cases k6 : key = "up"
      · rw [if_pos k6]
        by_cases k7 : m.cursor > 0
        · rw [if_pos k7]
          exact browserInv_dec _ h
        · rw [if_neg k7]
          exact h
      rw [if_neg k6]
      by_cases k8 : key = "down"
      · rw [if_pos k8]
        by_cases k9 : m.cursor + 1 < m.files.length
        · rw [if_pos k9]
          exact browserInv_inc _ k9
        · rw [if_neg k9]
          exact h
      rw [if_neg k8]
      by_cases k10 : key.length = 1
      · rw [if_pos k10]
        exact browserInv_fuzzy _ _
      · rw [if_neg k10]
        exact h
    · rw [if_neg hsm]
      by_cases k1 : key = "ctrl+c" ∨ key = "esc"
      · rw [if_pos k1]
        exact h
      rw [if_neg k1]
      by_cases k2 : key = "/"
      · rw [if_pos k2]
        exact h
      rw [if_neg k2]
      by_cases k3 : key = "up" ∨ key = "k"
      · rw [if_pos k3]
        by_cases k4 : m.cursor > 0
        · rw [if_pos k4]
          exact browserInv_dec _ h
        · rw [if_neg k4]
          exact h
      rw [if_neg k3]
      by_cases k5 : key = "down" ∨ key = "j"
      · rw [if_pos k5]
        by_cases k6 : m.cursor + 1 < m.files.length
        · rw [if_pos k6]
          exact browserInv_inc _ k6
        · rw [if_neg k6]
          exact h
      rw [if_neg k5]
      by_cases k7 : key = "enter"
      · rw [if_pos k7]
        exact browserInv_handleEnter _ _ h
      rw [if_neg k7]
      by_cases k8 : key = "backspace"
      · rw [if_pos k8]
        by_cases k9 : m.currentDir ≠ "/"
        · rw [if_pos k9]
          by_cases k10 : m.currentStep = Step.iconBrowser
          · rw [if_pos k10]
            exact browserInv_load _ _ _
          · rw [if_neg k10]
            exact browserInv_load _ _ _
        · rw [if_neg k9]
          exact h
      · rw [if_neg k8]
        exact h
  · simp only [isFileBrowserStep, Bool.or_eq_true, decide_eq_true_eq] at hstep
    rcases hstep with hs | hs <;> simp [handleEnter, hs, hfiles]

/-- C7 witness: the invariant holds through a concrete key stroke on the
concrete listing of /d. -/
theorem c7_cursor_invariant_witness :
    browserInv (handleFileBrowserKeys wizEnvEx browserModelEx "j").1 ∧
    browserInv (loadDirectoryWithFilter wizEnvEx false browserModelEx) ∧
    (isFileBrowserStep browserModelEx = true → browserModelEx.files = [] →
      handleEnter wizEnvEx browserModelEx = (browserModelEx, Cmd.none)) :=
  c7_cursor_invariant wizEnvEx browserModelEx "j" false
    (browserInv_load wizEnvEx false browseBaseEx)

set_option maxRecDepth 4096 in
/-- C8: leaving search mode with escape, or deleting the last remaining
query character, restores the visible list to the full unfiltered
listing and resets the cursor to 0. -/
theorem c8_clear_search_restores (env : Env) (m : Model)
    (hsm : m.searchMode = true) :
    ((handleFileBrowserKeys env m "esc").1.files = m.allFiles ∧
     (handleFileBrowserKeys env m "esc").1.cursor = 0) ∧
    (m.searchQuery.length = 1 →
      (handleFileBrowserKeys env m "backspace").1.files = m.allFiles ∧
      (handleFileBrowserKeys env m "backspace").1.cursor = 0) := by
  constructor
  · unfold handleFileBrowserKeys
    rw [if_pos hsm, if_neg (by decide : ¬(("esc" : String) = "ctrl+c")),
      if_pos (rfl : ("esc" : String) = "esc")]
    exact ⟨rfl, rfl⟩
  · intro hq
    obtain ⟨ch, hch⟩ : ∃ c, m.searchQuery.data = [c] :=
      List.length_eq_one.mp hq
    have hmk : String.mk (m.searchQuery.data.dropLast) = "" := by
      rw [hch]
      rfl
    unfold handleFileBrowserKeys
    rw [if_pos hsm, if_neg (by decide : ¬(("backspace" : String) = "ctrl+c")),
      if_neg (by decide : ¬(("backspace" : String) = "esc")),
      if_neg (by decide : ¬(("backspace" : String) = "enter")),
      if_pos (rfl : ("backspace" : String) = "backspace"),
      if_pos (show m.searchQuery.length > 0 by omega)]
    constructor <;> simp [applyFuzzySearch, hmk]

/-- C8 witness: a search over /d narrowed to one character, then
cleared both ways. -/
theorem c8_clear_search_restores_witness :
    ((handleFileBrowserKeys wizEnvEx searchModelEx "esc").1.files =
       searchModelEx.allFiles ∧
     (handleFileBrowserKeys wizEnvEx searchModelEx "esc").1.cursor = 0) ∧
    ((handleFileBrowserKeys wizEnvEx searchModelEx "backspace").1.files =
       searchModelEx.allFiles ∧
     (handleFileBrowserKeys wizEnvEx searchModelEx "backspace").1.cursor = 0) := by
  have h := c8_clear_search_restores wizEnvEx searchModelEx rfl
  exact ⟨h.1, h.2 rfl⟩

/-- C9: selecting a file in the browser while the config file exists but
holds no directory key sends the wizard to the terminal error step with
a non empty message. -/
theorem c9_config_parse_error (env : Env) (m : Model) (content : String)
    (hs : m.currentStep = Step.fileBrowser)
    (hne : m.files ≠ [])
    (hsel : (m.files.getD m.cursor emptyEntry).isDir = false)
    (hex : env.fileExists m.configPath = true)
    (hrf : env.readFile m.configPath = some content)
    (hpa : parseAppImageDir content = none) :
    (handleEnter env m).1.currentStep = Step.error ∧
    (handleEnter env m).1.error ≠ "" := by
  simp only [List.getD_eq_getElem?_getD] at hsel
  constructor <;>
    simp [handleEnter, hs, hne, hsel, hex, loadConfig, hrf, hpa]

/-- C9 witness: a config file with no APPIMAGE_DIR line. -/
theorem c9_config_parse_error_witness :
    (handleEnter badConfigEnvEx selectFileModelEx).1.currentStep = Step.error ∧
    (handleEnter badConfigEnvEx selectFileModelEx).1.error ≠ "" :=
  c9_config_parse_error badConfigEnvEx selectFileModelEx "OTHER=1\n" rfl
    (by decide) (by decide) rfl rfl (by decide)

/-- C10: the browse command at the Icon step always re-enters the icon
browser at the home directory with a cleared input, listing with the
image filter. -/
theorem c10_icon_browse_resets_to_home (env : Env) (m : Model)
    (hs : m.currentStep = Step.icon)
    (hb : m.input = "b" ∨ m.input = "B") :
    (handleEnter env m).1 =
      loadDirectoryWithFilter env true
        { m with currentDir := env.homeDir, currentStep := Step.iconBrowser,
                 input := "" } ∧
    (handleEnter env m).1.currentDir = env.homeDir ∧
    (handleEnter env m).1.currentStep = Step.iconBrowser ∧
    (handleEnter env m).1.input = "" := by
  have h1 : (handleEnter env m).1 =
      loadDirectoryWithFilter env true
        { m with currentDir := env.homeDir, currentStep := Step.iconBrowser,
                 input := "" } := by
    rcases hb with hb | hb <;> simp [handleEnter, hs, hb, loadIconDirectory]
  refine ⟨h1, ?_, ?_, ?_⟩ <;> rw [h1]
  · exact (load_fields env true _).1
  · exact (load_fields env true _).2.1
  · exact (load_fields env true _).2.2

/-- C10 witness: pressing b at the Icon step of the example state. -/
theorem c10_icon_browse_resets_to_home_witness :
    (handleEnter wizEnvEx iconStepModelEx).1 =
      loadDirectoryWithFilter wizEnvEx true
        { iconStepModelEx with
          currentDir := wizEnvEx.homeDir,
          currentStep := Step.iconBrowser, input := "" } ∧
    (handleEnter wizEnvEx iconStepModelEx).1.currentDir = wizEnvEx.homeDir ∧
    (handleEnter wizEnvEx iconStepModelEx).1.currentStep = Step.iconBrowser ∧
    (handleEnter wizEnvEx iconStepModelEx).1.input = "" :=
  c10_icon_browse_resets_to_home wizEnvEx iconStepModelEx rfl (Or.inl rfl)

end Teabag
